import Mathlib

/-!
Verification development for the farm-manager core: the device connection
pool, the session bring-up protocol (Server), and the decode pipeline
(Decoder), embedded shallowly from the C++ sources under
`src/QtScrcpy/QtScrcpyCore/src/device/`.
-/

namespace FarmManager

/-!
## Connection pool
Embedded from `deviceconnectionpool.cpp`.
-/

/-- One pool entry: mirrors `PooledConnection` (serial, device, params, inUse,
usageCount, lastUsedTime). `elapsed` stands for `lastUsedTime.elapsed()` in
milliseconds; `start`/`restart` reset it to 0. The `Device` object and the
`DeviceParams` are abstracted to identifiers. -/
structure PooledConnection where
  serial : String
  device : Nat
  params : Nat
  inUse : Bool
  usageCount : Nat
  elapsed : Nat
  deriving Repr, DecidableEq

/-- Pool state: `m_connections` (the QHash, modelled as a list in iteration
order) together with `m_maxConnections`. -/
structure PoolState where
  connections : List PooledConnection
  maxConnections : Nat
  deriving Repr, DecidableEq

/-- The scan loop of `DeviceConnectionPool::evictLRUConnection`: walks the
entries keeping the serial of the idle entry with the largest elapsed idle
time seen so far. `oldestTime` starts at 0 and is only beaten strictly
(`elapsed > oldestTime`). -/
def findLRU : List PooledConnection → Option String → Nat → Option String
  | [], best, _ => best
  | c :: rest, best, oldest =>
    if c.inUse = false ∧ oldest < c.elapsed then
      findLRU rest (some c.serial) c.elapsed
    else
      findLRU rest best oldest

/-- `DeviceConnectionPool::evictLRUConnection`: returns immediately on an
empty map, otherwise removes the entry found by the scan; when no idle entry
was found (`lruSerial` empty) it removes nothing. -/
def evictLRUConnection (l : List PooledConnection) : List PooledConnection :=
  if l.isEmpty then l
  else
    match findLRU l none 0 with
    | none => l
    | some k => l.filter (fun c => c.serial != k)

/-- `DeviceConnectionPool::canAcquireNewConnection`:
`m_connections.size() < m_maxConnections`. -/
def canAcquireNewConnection (s : PoolState) : Bool :=
  s.connections.length < s.maxConnections

/-- `DeviceConnectionPool::acquireConnection`. `newDevice` stands for the
`Device` a successful `QSharedPointer<Device>::create(params)` yields and
`deviceOk` for that construction not throwing (on a throw the function
returns a null pointer after the limit check already ran). Returns the
acquired device (none on creation failure) and the new pool state. -/
def acquireConnection (s : PoolState) (params : Nat) (serial : String)
    (newDevice : Nat) (deviceOk : Bool) : Option Nat × PoolState :=
  match s.connections.find? (fun c => c.serial == serial) with
  | some c =>
    if c.inUse = false then
      (some c.device,
       { s with connections := s.connections.map (fun e =>
           if e.serial == serial then
             { e with
               inUse := true,
               usageCount := e.usageCount + 1,
               elapsed := 0,
               params := params }
           else e) })
    else
      (some c.device, s)
  | none =>
    let conns := if canAcquireNewConnection s then s.connections
                 else evictLRUConnection s.connections
    if deviceOk then
      (some newDevice,
       { s with connections :=
           conns ++ [{ serial := serial, device := newDevice, params := params,
                       inUse := true, usageCount := 1, elapsed := 0 }] })
    else
      (none, { s with connections := conns })

/-- `DeviceConnectionPool::releaseConnection`: marks the entry idle and
restarts its idle clock; a missing serial is a no-op. -/
def releaseConnection (s : PoolState) (serial : String) : PoolState :=
  match s.connections.find? (fun c => c.serial == serial) with
  | none => s
  | some _ =>
    { s with connections := s.connections.map (fun e =>
        if e.serial == serial then { e with inUse := false, elapsed := 0 }
        else e) }

/-- `DeviceConnectionPool::QualityTier`. -/
inductive QualityTier
  | tierUltra | tierHigh | tierMedium | tierLow | tierMinimal
  deriving Repr, DecidableEq

/-- `StreamQualityProfile` from `deviceconnectionpool.h`. -/
structure StreamQualityProfile where
  maxSize : Nat
  bitRate : Nat
  maxFps : Nat
  description : String
  deriving Repr, DecidableEq

/-- `DeviceConnectionPool::getQualityTier` (`deviceCount` is a C++ `int`). -/
def getQualityTier (deviceCount : Int) : QualityTier :=
  if deviceCount ≤ 5 then .tierUltra
  else if deviceCount ≤ 20 then .tierHigh
  else if deviceCount ≤ 50 then .tierMedium
  else if deviceCount ≤ 100 then .tierLow
  else .tierMinimal

/-- The `switch` body of `DeviceConnectionPool::getOptimalStreamSettings`. -/
def profileOfTier : QualityTier → StreamQualityProfile
  | .tierUltra => ⟨1080, 8000000, 60, "Ultra (1-5 devices)"⟩
  | .tierHigh => ⟨720, 4000000, 30, "High (6-20 devices)"⟩
  | .tierMedium => ⟨360, 1500000, 20, "Medium (21-50 devices - Stability focused)"⟩
  | .tierLow => ⟨240, 800000, 15, "Low (51-100 devices - Maximum stability)"⟩
  | .tierMinimal => ⟨180, 400000, 10, "Minimal (100+ devices - Maximum stability)"⟩

/-- `DeviceConnectionPool::getOptimalStreamSettings`. -/
def getOptimalStreamSettings (totalDeviceCount : Int) : StreamQualityProfile :=
  profileOfTier (getQualityTier totalDeviceCount)

/-- Rank of a tier, Ultra = 0 up to Minimal = 4 (used to compare tiers). -/
def tierRank : QualityTier → Nat
  | .tierUltra => 0
  | .tierHigh => 1
  | .tierMedium => 2
  | .tierLow => 3
  | .tierMinimal => 4

lemma tierRank_mono {c1 c2 : Int} (h : c1 ≤ c2) :
    tierRank (getQualityTier c1) ≤ tierRank (getQualityTier c2) := by
  unfold getQualityTier
  split_ifs <;> simp [tierRank] <;> omega

lemma profileOfTier_anti (t1 t2 : QualityTier) (h : tierRank t1 ≤ tierRank t2) :
    (profileOfTier t2).maxSize ≤ (profileOfTier t1).maxSize ∧
    (profileOfTier t2).bitRate ≤ (profileOfTier t1).bitRate ∧
    (profileOfTier t2).maxFps ≤ (profileOfTier t1).maxFps := by
  cases t1 <;> cases t2 <;> first | decide | exact absurd h (by decide)

lemma findLRU_eq_none {l : List PooledConnection} {best : Option String}
    {oldest : Nat} :
    findLRU l best oldest = none ↔
      best = none ∧ ∀ c ∈ l, c.inUse = true ∨ c.elapsed ≤ oldest := by
  induction l generalizing best oldest with
  | nil => simp [findLRU]
  | cons c rest ih =>
    by_cases hc : c.inUse = false ∧ oldest < c.elapsed
    · rw [findLRU, if_pos hc, ih]
      constructor
      · rintro ⟨h, -⟩; cases h
      · rintro ⟨-, hall⟩
        rcases hall c (List.mem_cons_self _ _) with h1 | h1
        · rw [hc.1] at h1; cases h1
        · exact absurd hc.2 (by omega)
    · rw [findLRU, if_neg hc, ih]
      constructor
      · rintro ⟨hb, hall⟩
        refine ⟨hb, fun d hd => ?_⟩
        rcases List.mem_cons.mp hd with rfl | hd
        · rcases Bool.eq_false_or_eq_true d.inUse with h1 | h1
          · exact Or.inl h1
          · exact Or.inr (by by_contra hlt; exact hc ⟨h1, by omega⟩)
        · exact hall d hd
      · rintro ⟨hb, hall⟩
        exact ⟨hb, fun d hd => hall d (List.mem_cons_of_mem _ hd)⟩

lemma findLRU_eq_some {l : List PooledConnection} {best : Option String}
    {oldest : Nat} {k : String} (h : findLRU l best oldest = some k) :
    (best = some k ∧ ∀ c ∈ l, c.inUse = true ∨ c.elapsed ≤ oldest) ∨
    (∃ c, c ∈ l ∧ c.serial = k ∧ c.inUse = false ∧ oldest < c.elapsed ∧
       ∀ d ∈ l, d.inUse = false → d.elapsed ≤ c.elapsed) := by
  induction l generalizing best oldest with
  | nil =>
    rw [findLRU] at h
    exact Or.inl ⟨h, by simp⟩
  | cons c rest ih =>
    by_cases hc : c.inUse = false ∧ oldest < c.elapsed
    · rw [findLRU, if_pos hc] at h
      rcases ih h with ⟨hb, hall⟩ | ⟨c', hmem, hser, huse, hlt, hmax⟩
      · right
        refine ⟨c, List.mem_cons_self _ _, by injection hb, hc.1, hc.2, ?_⟩
        intro d hd hdu
        rcases List.mem_cons.mp hd with rfl | hd
        · exact le_refl _
        · rcases hall d hd with h1 | h1
          · rw [hdu] at h1; cases h1
          · exact h1
      · right
        refine ⟨c', List.mem_cons_of_mem _ hmem, hser, huse, by omega, ?_⟩
        intro d hd hdu
        rcases List.mem_cons.mp hd with rfl | hd
        · omega
        · exact hmax d hd hdu
    · rw [findLRU, if_neg hc] at h
      rcases ih h with ⟨hb, hall⟩ | ⟨c', hmem, hser, huse, hlt, hmax⟩
      · left
        refine ⟨hb, fun d hd => ?_⟩
        rcases List.mem_cons.mp hd with rfl | hd
        · rcases Bool.eq_false_or_eq_true d.inUse with h1 | h1
          · exact Or.inl h1
          · exact Or.inr (by by_contra hlt2; exact hc ⟨h1, by omega⟩)
        · exact hall d hd
      · right
        refine ⟨c', List.mem_cons_of_mem _ hmem, hser, huse, hlt, ?_⟩
        intro d hd hdu
        rcases List.mem_cons.mp hd with rfl | hd
        · have : ¬ oldest < d.elapsed := fun hlt2 => hc ⟨hdu, hlt2⟩
          omega
        · exact hmax d hd hdu

lemma filter_serial_length {l : List PooledConnection} {c : PooledConnection}
    (hnd : (l.map PooledConnection.serial).Nodup) (hmem : c ∈ l) :
    (l.filter (fun e => e.serial != c.serial)).length + 1 = l.length := by
  induction l with
  | nil => cases hmem
  | cons a rest ih =>
    rw [List.map_cons, List.nodup_cons] at hnd
    rcases List.mem_cons.mp hmem with rfl | hmem
    · have h1 : (c.serial != c.serial) = false := by simp
      have hrest : rest.filter (fun e => e.serial != c.serial) = rest := by
        apply List.filter_eq_self.mpr
        intro e he
        have hne : e.serial ≠ c.serial := by
          intro hcontra
          exact hnd.1 (hcontra ▸ List.mem_map_of_mem _ he)
        simpa using hne
      simp [List.filter_cons, h1, hrest]
    · have hne : (a.serial != c.serial) = true := by
        have : a.serial ≠ c.serial := by
          intro hcontra
          exact hnd.1 (hcontra ▸ List.mem_map_of_mem _ hmem)
        simpa using this
      rw [List.filter_cons, if_pos hne, List.length_cons, List.length_cons,
        ih hnd.2 hmem]

lemma serial_inj {l : List PooledConnection} {c d : PooledConnection}
    (hnd : (l.map PooledConnection.serial).Nodup) (hc : c ∈ l) (hd : d ∈ l)
    (h : c.serial = d.serial) : c = d :=
  List.inj_on_of_nodup_map hnd hc hd h

/-- C1 counterexample: a two-acquire trace that drives the pool above its
configured capacity. With `maxConnections = 1`, acquiring `"a"` fills the pool
(the entry is in use); acquiring `"b"` is an acquire at capacity with no idle
entry, yet `acquireConnection` still creates and inserts the new entry after
`evictLRUConnection` found nothing to evict, so the pool holds 2 entries with
capacity 1 — the claimed invariant (in-use + idle never exceeds capacity, and
an acquire with no idle entry is refused with no new entry) fails. -/
theorem acquireConnection_capacity_counterexample :
    (acquireConnection ⟨[], 1⟩ 0 "a" 100 true).2.connections.length = 1 ∧
    ((acquireConnection (acquireConnection ⟨[], 1⟩ 0 "a" 100 true).2
        0 "b" 101 true).2.connections.length = 2 ∧
      (acquireConnection (acquireConnection ⟨[], 1⟩ 0 "a" 100 true).2
        0 "b" 101 true).2.maxConnections <
      (acquireConnection (acquireConnection ⟨[], 1⟩ 0 "a" 100 true).2
        0 "b" 101 true).2.connections.length) := by
  decide

/-- C1 (amended): when `acquireConnection` runs for a serial not in the pool
and the pool is at (or above) capacity, it first attempts one LRU eviction
and then inserts the new entry regardless. If some idle entry with positive
elapsed idle time exists, exactly one entry is evicted — an idle one whose
elapsed idle time is maximal among all idle entries — and the entry count is
unchanged; if no such idle entry exists, nothing is evicted and the count
grows by one, exceeding the configured capacity. -/
theorem acquireConnection_at_capacity (s : PoolState) (params : Nat)
    (serial : String) (newDevice : Nat)
    (hfind : s.connections.find? (fun c => c.serial == serial) = none)
    (hcap : s.maxConnections ≤ s.connections.length)
    (hnd : (s.connections.map PooledConnection.serial).Nodup) :
    ((acquireConnection s params serial newDevice true).2.connections.length =
      if s.connections.any (fun c => !c.inUse && decide (0 < c.elapsed))
      then s.connections.length else s.connections.length + 1) ∧
    (∀ c ∈ s.connections,
      c ∉ (acquireConnection s params serial newDevice true).2.connections →
      c.inUse = false ∧ 0 < c.elapsed ∧
      ∀ d ∈ s.connections, d.inUse = false → d.elapsed ≤ c.elapsed) := by
  have hcan : canAcquireNewConnection s = false := by
    simp only [canAcquireNewConnection, decide_eq_false_iff_not, not_lt]
    exact hcap
  rcases hfl : findLRU s.connections none 0 with - | k
  · -- no evictable idle entry
    have hnone := findLRU_eq_none.mp hfl
    have hany : s.connections.any (fun c => !c.inUse && decide (0 < c.elapsed)) =
        false := by
      rw [List.any_eq_false]
      intro c hcmem
      rcases hnone.2 c hcmem with h1 | h1 <;> simp [h1]
    have hev : evictLRUConnection s.connections = s.connections := by
      unfold evictLRUConnection
      split
      · rfl
      · rw [hfl]
    constructor
    · simp [acquireConnection, hfind, hcan, hev, hany]
    · intro c hcmem hnot
      exfalso
      apply hnot
      simp [acquireConnection, hfind, hcan, hev]
      exact Or.inl hcmem
  · -- an idle entry with positive elapsed idle time exists and is evicted
    rcases findLRU_eq_some hfl with ⟨hb, -⟩ | ⟨c0, hmem, hser, huse, hpos, hmax⟩
    · cases hb
    have hne : s.connections.isEmpty = false := by
      cases hl : s.connections
      · rw [hl] at hmem; cases hmem
      · rfl
    have hev : evictLRUConnection s.connections =
        s.connections.filter (fun c => c.serial != k) := by
      unfold evictLRUConnection
      rw [hne, hfl]
      rfl
    have hany : s.connections.any (fun c => !c.inUse && decide (0 < c.elapsed)) =
        true :=
      List.any_eq_true.mpr ⟨c0, hmem, by simp [huse]; omega⟩
    have hlen := filter_serial_length hnd hmem
    constructor
    · simp only [acquireConnection, hfind, hcan, Bool.false_eq_true, if_false,
        if_pos, hev, hany, if_true, List.length_append, List.length_cons,
        List.length_nil]
      rw [hser] at hlen
      omega
    · intro c hcmem hnot
      simp only [acquireConnection, hfind, hcan, Bool.false_eq_true, if_false,
        if_pos, hev, List.mem_append, List.mem_cons, List.mem_filter,
        not_or] at hnot
      have hcser : c.serial = k := by
        rcases hnot with ⟨hnf, -⟩
        by_contra hneq
        exact hnf ⟨hcmem, by simpa using hneq⟩
      have : c = c0 := serial_inj hnd hcmem hmem (by rw [hcser, hser])
      subst this
      exact ⟨huse, hpos, hmax⟩

/-- Witness for `acquireConnection_at_capacity`: a pool of capacity 1 holding
one idle entry with elapsed idle time 5; acquiring a fresh serial evicts it
and the entry count stays 1. -/
theorem acquireConnection_at_capacity_witness :
    ((acquireConnection ⟨[⟨"a", 1, 0, false, 1, 5⟩], 1⟩ 0 "b" 2
        true).2.connections.length =
      if ([⟨"a", 1, 0, false, 1, 5⟩] :
          List PooledConnection).any (fun c => !c.inUse && decide (0 < c.elapsed))
      then ([⟨"a", 1, 0, false, 1, 5⟩] : List PooledConnection).length
      else ([⟨"a", 1, 0, false, 1, 5⟩] : List PooledConnection).length + 1) ∧
    (∀ c ∈ ([⟨"a", 1, 0, false, 1, 5⟩] : List PooledConnection),
      c ∉ (acquireConnection ⟨[⟨"a", 1, 0, false, 1, 5⟩], 1⟩ 0 "b" 2
        true).2.connections →
      c.inUse = false ∧ 0 < c.elapsed ∧
      ∀ d ∈ ([⟨"a", 1, 0, false, 1, 5⟩] : List PooledConnection),
        d.inUse = false → d.elapsed ≤ c.elapsed) :=
  acquireConnection_at_capacity ⟨[⟨"a", 1, 0, false, 1, 5⟩], 1⟩ 0 "b" 2
    (by decide) (by decide) (by decide)

/-- C10: acquiring a serial whose pool entry is currently in use returns that
entry's existing device and leaves the whole pool state unchanged — no field
of the entry is modified and no entry is created, removed or evicted. -/
theorem acquireConnection_inUse_frame (s : PoolState) (params : Nat)
    (serial : String) (newDevice : Nat) (deviceOk : Bool)
    (c : PooledConnection)
    (hfind : s.connections.find? (fun e => e.serial == serial) = some c)
    (hin : c.inUse = true) :
    acquireConnection s params serial newDevice deviceOk = (some c.device, s) := by
  simp [acquireConnection, hfind, hin]

/-- Witness for `acquireConnection_inUse_frame` at a concrete one-entry pool
whose entry is in use. -/
theorem acquireConnection_inUse_frame_witness :
    acquireConnection ⟨[⟨"a", 7, 3, true, 4, 9⟩], 2⟩ 0 "a" 2 true =
      (some 7, ⟨[⟨"a", 7, 3, true, 4, 9⟩], 2⟩) :=
  acquireConnection_inUse_frame ⟨[⟨"a", 7, 3, true, 4, 9⟩], 2⟩ 0 "a" 2 true
    ⟨"a", 7, 3, true, 4, 9⟩ (by decide) (by decide)

/-- C5: the quality-profile function maps the total device count to a tier by
the thresholds ≤5 → Ultra, ≤20 → High, ≤50 → Medium, ≤100 → Low, else →
Minimal, and for device counts `c1 < c2` the profile is non-increasing on
every axis: maxDimension, bitRate and maxFps. -/
theorem getOptimalStreamSettings_spec (c c1 c2 : Int) (h : c1 < c2) :
    (c ≤ 5 → getQualityTier c = .tierUltra) ∧
    (5 < c → c ≤ 20 → getQualityTier c = .tierHigh) ∧
    (20 < c → c ≤ 50 → getQualityTier c = .tierMedium) ∧
    (50 < c → c ≤ 100 → getQualityTier c = .tierLow) ∧
    (100 < c → getQualityTier c = .tierMinimal) ∧
    (getOptimalStreamSettings c2).maxSize ≤ (getOptimalStreamSettings c1).maxSize ∧
    (getOptimalStreamSettings c2).bitRate ≤ (getOptimalStreamSettings c1).bitRate ∧
    (getOptimalStreamSettings c2).maxFps ≤ (getOptimalStreamSettings c1).maxFps := by
  have hmono := profileOfTier_anti _ _ (tierRank_mono (le_of_lt h))
  simp only [getOptimalStreamSettings]
  refine ⟨?_, ?_, ?_, ?_, ?_, hmono.1, hmono.2.1, hmono.2.2⟩ <;>
    (intros; unfold getQualityTier; split_ifs <;> first | rfl | omega)

/-- Witness for `getOptimalStreamSettings_spec` at counts 3 and 10 < 30. -/
theorem getOptimalStreamSettings_spec_witness :
    ((3 : Int) ≤ 5 → getQualityTier 3 = .tierUltra) ∧
    ((5 : Int) < 3 → (3 : Int) ≤ 20 → getQualityTier 3 = .tierHigh) ∧
    ((20 : Int) < 3 → (3 : Int) ≤ 50 → getQualityTier 3 = .tierMedium) ∧
    ((50 : Int) < 3 → (3 : Int) ≤ 100 → getQualityTier 3 = .tierLow) ∧
    ((100 : Int) < 3 → getQualityTier 3 = .tierMinimal) ∧
    (getOptimalStreamSettings 30).maxSize ≤ (getOptimalStreamSettings 10).maxSize ∧
    (getOptimalStreamSettings 30).bitRate ≤ (getOptimalStreamSettings 10).bitRate ∧
    (getOptimalStreamSettings 30).maxFps ≤ (getOptimalStreamSettings 10).maxFps :=
  getOptimalStreamSettings_spec 3 10 30 (by decide)

/-!
## Server: handshake header parsing
Embedded from `server.cpp` (`bufferRead32be`, `Server::onVideoSocketReadyRead`).
-/

/-- `DEVICE_NAME_FIELD_LENGTH` from server.cpp. -/
def DEVICE_NAME_FIELD_LENGTH : Nat := 64

/-- `requiredBytes` of `Server::onVideoSocketReadyRead`:
`DEVICE_NAME_FIELD_LENGTH + 12 = 76` bytes of handshake header. -/
def requiredBytes : Nat := DEVICE_NAME_FIELD_LENGTH + 12

/-- `bufferRead32be(buf)`:
`(buf[0] << 24) | (buf[1] << 16) | (buf[2] << 8) | buf[3]`, on byte values. -/
def bufferRead32be (b0 b1 b2 b3 : Nat) : Nat :=
  (((b0 <<< 24) ||| (b1 <<< 16)) ||| (b2 <<< 8)) ||| b3

/-- Byte of a buffer at an index (reads past the end yield 0; the code never
performs them on a parsed buffer, which holds ≥ 76 bytes). -/
def byteAt (buf : List Nat) (i : Nat) : Nat := buf.getD i 0

/-- The device info decoded from a handshake header: `m_deviceName` (UTF-8
bytes up to the NUL terminator) and `m_deviceSize`. -/
structure DeviceInfo where
  name : List Nat
  width : Nat
  height : Nat
  deriving Repr, DecidableEq

/-- The parse block of `Server::onVideoSocketReadyRead` on a buffer of ≥ 76
bytes: byte 63 is forced to NUL (so the name is read from bytes 0..62 up to a
NUL), the width is the big-endian u32 at bytes 68..71
(`DEVICE_NAME_FIELD_LENGTH + 4`) and the height the big-endian u32 at bytes
72..75 (`DEVICE_NAME_FIELD_LENGTH + 8`). -/
def parseDeviceInfo (buf : List Nat) : DeviceInfo where
  name := (buf.take (DEVICE_NAME_FIELD_LENGTH - 1)).takeWhile (fun b => b != 0)
  width := bufferRead32be (byteAt buf (DEVICE_NAME_FIELD_LENGTH + 4))
    (byteAt buf (DEVICE_NAME_FIELD_LENGTH + 5))
    (byteAt buf (DEVICE_NAME_FIELD_LENGTH + 6))
    (byteAt buf (DEVICE_NAME_FIELD_LENGTH + 7))
  height := bufferRead32be (byteAt buf (DEVICE_NAME_FIELD_LENGTH + 8))
    (byteAt buf (DEVICE_NAME_FIELD_LENGTH + 9))
    (byteAt buf (DEVICE_NAME_FIELD_LENGTH + 10))
    (byteAt buf (DEVICE_NAME_FIELD_LENGTH + 11))

/-- The handshake accumulation state of `Server`: `m_readBuffer`, whether the
parse already completed (after which the `readyRead` handler is
disconnected), and the parsed info. -/
structure ReadInfoState where
  readBuffer : List Nat
  infoDone : Bool
  info : Option DeviceInfo
  deriving Repr, DecidableEq

/-- State right after `startAsyncReadInfo` cleared `m_readBuffer`. -/
def initReadInfoState : ReadInfoState := ⟨[], false, none⟩

/-- One `readyRead` delivery handled by `Server::onVideoSocketReadyRead`:
append all available bytes to `m_readBuffer`; with fewer than 76 bytes
accumulated do nothing further (no completion, no error); at ≥ 76 bytes parse
the device info, drop the 76 consumed bytes and disconnect the handler.
Returns the new state and whether the parse completed in this step. -/
def onVideoSocketReadyRead (st : ReadInfoState) (chunk : List Nat) :
    ReadInfoState × Bool :=
  if st.infoDone then (st, false)
  else
    let buf := st.readBuffer ++ chunk
    if buf.length < requiredBytes then
      ({ st with readBuffer := buf }, false)
    else
      (⟨buf.drop requiredBytes, true, some (parseDeviceInfo buf)⟩, true)

/-- Delivery of a sequence of socket chunks to `onVideoSocketReadyRead`,
collecting the per-chunk completion flags. -/
def runReadInfo (st : ReadInfoState) : List (List Nat) → ReadInfoState × List Bool
  | [] => (st, [])
  | c :: cs =>
    let r := onVideoSocketReadyRead st c
    let rest := runReadInfo r.1 cs
    (rest.1, r.2 :: rest.2)

lemma lor_eq_add_of_lt (a b k : Nat) (ha : ∃ c, a = 2 ^ k * c)
    (hb : b < 2 ^ k) : a ||| b = a + b := by
  rcases ha with ⟨c, rfl⟩
  exact (Nat.mul_add_lt_is_or hb c).symm

lemma bufferRead32be_eq {b0 b1 b2 b3 : Nat} (h0 : b0 < 256) (h1 : b1 < 256)
    (h2 : b2 < 256) (h3 : b3 < 256) :
    bufferRead32be b0 b1 b2 b3 = ((b0 * 256 + b1) * 256 + b2) * 256 + b3 := by
  have p8 : (2 : Nat) ^ 8 = 256 := by norm_num
  have p16 : (2 : Nat) ^ 16 = 65536 := by norm_num
  have p24 : (2 : Nat) ^ 24 = 16777216 := by norm_num
  unfold bufferRead32be
  rw [Nat.shiftLeft_eq, Nat.shiftLeft_eq, Nat.shiftLeft_eq]
  rw [lor_eq_add_of_lt (b0 * 2 ^ 24) (b1 * 2 ^ 16) 24 ⟨b0, by ring⟩
    (by rw [p16, p24]; omega)]
  rw [lor_eq_add_of_lt (b0 * 2 ^ 24 + b1 * 2 ^ 16) (b2 * 2 ^ 8) 16
    ⟨b0 * 2 ^ 8 + b1, by ring⟩ (by rw [p8, p16]; omega)]
  rw [lor_eq_add_of_lt (b0 * 2 ^ 24 + b1 * 2 ^ 16 + b2 * 2 ^ 8) b3 8
    ⟨b0 * 2 ^ 16 + b1 * 2 ^ 8 + b2, by ring⟩ (by rw [p8]; omega)]
  rw [p8, p16, p24]
  ring

lemma byteAt_lt {buf : List Nat} (h : ∀ b ∈ buf, b < 256) {i : Nat}
    (hi : i < buf.length) : byteAt buf i < 256 := by
  induction buf generalizing i with
  | nil => cases hi
  | cons a l ih =>
    cases i with
    | zero => exact h a (List.mem_cons_self _ _)
    | succ j =>
      rw [byteAt, List.getD_cons_succ]
      exact ih (fun b hb => h b (List.mem_cons_of_mem _ hb))
        (Nat.lt_of_succ_lt_succ hi)

lemma byteAt_append {b rest : List Nat} {i : Nat} (h : i < b.length) :
    byteAt (b ++ rest) i = byteAt b i := by
  induction b generalizing i with
  | nil => cases h
  | cons a l ih =>
    cases i with
    | zero => rfl
    | succ j =>
      simp only [byteAt, List.cons_append, List.getD_cons_succ]
      exact ih (Nat.lt_of_succ_lt_succ h)

lemma requiredBytes_eq : requiredBytes = 76 := rfl

lemma parseDeviceInfo_append (b rest : List Nat)
    (hlen : requiredBytes ≤ b.length) :
    parseDeviceInfo (b ++ rest) = parseDeviceInfo b := by
  rw [requiredBytes_eq] at hlen
  have hname : (b ++ rest).take (DEVICE_NAME_FIELD_LENGTH - 1) =
      b.take (DEVICE_NAME_FIELD_LENGTH - 1) :=
    List.take_append_of_le_length
      (by simp only [DEVICE_NAME_FIELD_LENGTH]; omega)
  have hb : ∀ i : Nat, i < 76 → byteAt (b ++ rest) i = byteAt b i :=
    fun i hi => byteAt_append (by omega)
  unfold parseDeviceInfo
  simp only [DeviceInfo.mk.injEq]
  refine ⟨by rw [hname], ?_, ?_⟩ <;>
    rw [hb _ (by simp only [DEVICE_NAME_FIELD_LENGTH]; omega),
      hb _ (by simp only [DEVICE_NAME_FIELD_LENGTH]; omega),
      hb _ (by simp only [DEVICE_NAME_FIELD_LENGTH]; omega),
      hb _ (by simp only [DEVICE_NAME_FIELD_LENGTH]; omega)]

lemma onVideoSocketReadyRead_accum {st : ReadInfoState}
    (hdone : st.infoDone = false) {c : List Nat}
    (hc : (st.readBuffer ++ c).length < requiredBytes) :
    onVideoSocketReadyRead st c =
      ({ st with readBuffer := st.readBuffer ++ c }, false) := by
  have hc' : st.readBuffer.length + c.length < requiredBytes := by simpa using hc
  simp [onVideoSocketReadyRead, hdone, hc']

lemma onVideoSocketReadyRead_complete {st : ReadInfoState}
    (hdone : st.infoDone = false) {c : List Nat}
    (hc : ¬ (st.readBuffer ++ c).length < requiredBytes) :
    onVideoSocketReadyRead st c =
      (⟨(st.readBuffer ++ c).drop requiredBytes, true,
        some (parseDeviceInfo (st.readBuffer ++ c))⟩, true) := by
  have hc' : ¬ st.readBuffer.length + c.length < requiredBytes := by
    simpa using hc
  simp [onVideoSocketReadyRead, hdone, hc']

lemma onVideoSocketReadyRead_done {st : ReadInfoState} (h : st.infoDone = true)
    (c : List Nat) : onVideoSocketReadyRead st c = (st, false) := by
  simp [onVideoSocketReadyRead, h]

lemma runReadInfo_done {st : ReadInfoState} (h : st.infoDone = true)
    (cs : List (List Nat)) :
    runReadInfo st cs = (st, List.replicate cs.length false) := by
  induction cs with
  | nil => rfl
  | cons c cs ih =>
    simp [runReadInfo, onVideoSocketReadyRead_done h, ih, List.replicate]

lemma runReadInfo_true (b : List Nat) (o : Option DeviceInfo)
    (cs : List (List Nat)) :
    runReadInfo ⟨b, true, o⟩ cs =
      (⟨b, true, o⟩, List.replicate cs.length false) :=
  runReadInfo_done rfl cs

lemma getD_replicate_false (n i : Nat) :
    (List.replicate n false).getD i false = false := by
  induction n generalizing i with
  | zero => rfl
  | succ m ih =>
    cases i with
    | zero => rfl
    | succ j => simpa [List.replicate] using ih j

lemma runReadInfo_count (cs : List (List Nat)) :
    ∀ st : ReadInfoState, st.infoDone = false →
      st.readBuffer.length < requiredBytes →
      (runReadInfo st cs).2.count true =
        if requiredBytes ≤ st.readBuffer.length + cs.flatten.length
        then 1 else 0 := by
  induction cs with
  | nil =>
    intro st hdone hlen
    rw [requiredBytes_eq] at hlen
    rw [runReadInfo, if_neg (by
      simp only [requiredBytes_eq, List.flatten_nil, List.length_nil]; omega)]
    rfl
  | cons c cs ih =>
    intro st hdone hlen
    by_cases hc : (st.readBuffer ++ c).length < requiredBytes
    · rw [runReadInfo]
      simp only [onVideoSocketReadyRead_accum hdone hc]
      have hih := ih ⟨st.readBuffer ++ c, st.infoDone, st.info⟩ hdone
        (by simpa using hc)
      simp only [List.count_cons, hih]
      have hiff : (requiredBytes ≤
            (st.readBuffer ++ c).length + cs.flatten.length) ↔
          (requiredBytes ≤ st.readBuffer.length +
            (c :: cs).flatten.length) := by
        simp only [requiredBytes_eq, List.length_append, List.flatten_cons]
        omega
      simp [hiff]
      rw [Nat.add_assoc]
    · rw [runReadInfo]
      simp only [onVideoSocketReadyRead_complete hdone hc, runReadInfo_true]
      rw [requiredBytes_eq] at hc
      rw [if_pos (by
        simp only [requiredBytes_eq, List.flatten_cons, List.length_append]
        simp only [List.length_append] at hc
        omega)]
      simp [List.count_replicate]

lemma runReadInfo_flags (cs : List (List Nat)) :
    ∀ st : ReadInfoState, st.infoDone = false →
      st.readBuffer.length < requiredBytes → ∀ i : Nat,
      ((runReadInfo st cs).2.getD i false = true ↔
        (requiredBytes ≤ st.readBuffer.length +
            ((cs.take (i + 1)).flatten).length ∧
          st.readBuffer.length + ((cs.take i).flatten).length <
            requiredBytes)) := by
  induction cs with
  | nil =>
    intro st hdone hlen i
    rw [requiredBytes_eq] at hlen
    rw [runReadInfo]
    simp only [requiredBytes_eq, List.take_nil, List.flatten_nil,
      List.length_nil, Nat.add_zero]
    constructor
    · intro h; cases h
    · intro h; omega
  | cons c cs ih =>
    intro st hdone hlen i
    by_cases hc : (st.readBuffer ++ c).length < requiredBytes
    · rw [runReadInfo]
      simp only [onVideoSocketReadyRead_accum hdone hc]
      cases i with
      | zero =>
        rw [List.getD_cons_zero]
        rw [requiredBytes_eq] at hc
        simp only [requiredBytes_eq, List.take_succ_cons, List.take_zero,
          List.take_nil, List.flatten_cons, List.flatten_nil,
          List.length_append, List.length_nil]
        simp only [List.length_append] at hc
        constructor
        · intro h; cases h
        · intro h; exfalso; omega
      | succ j =>
        rw [List.getD_cons_succ,
          ih ⟨st.readBuffer ++ c, st.infoDone, st.info⟩ hdone
            (by simpa using hc) j]
        simp only [requiredBytes_eq, List.take_succ_cons, List.flatten_cons,
          List.length_append]
        omega
    · rw [runReadInfo]
      simp only [onVideoSocketReadyRead_complete hdone hc, runReadInfo_true]
      rw [requiredBytes_eq] at hc hlen
      simp only [List.length_append] at hc
      cases i with
      | zero =>
        rw [List.getD_cons_zero]
        simp only [requiredBytes_eq, List.take_succ_cons, List.take_zero,
          List.take_nil, List.flatten_cons, List.flatten_nil,
          List.length_append, List.length_nil]
        constructor
        · intro _; omega
        · intro _; trivial
      | succ j =>
        rw [List.getD_cons_succ, getD_replicate_false]
        simp only [requiredBytes_eq, List.take_succ_cons, List.flatten_cons,
          List.length_append]
        constructor
        · intro h; cases h
        · intro h; exfalso; omega

lemma runReadInfo_info (cs : List (List Nat)) :
    ∀ st : ReadInfoState, st.infoDone = false →
      st.readBuffer.length < requiredBytes → st.info = none →
      (runReadInfo st cs).1.info =
        if requiredBytes ≤ st.readBuffer.length + cs.flatten.length
        then some (parseDeviceInfo (st.readBuffer ++ cs.flatten))
        else none := by
  induction cs with
  | nil =>
    intro st hdone hlen hinfo
    rw [requiredBytes_eq] at hlen
    rw [runReadInfo, if_neg (by
      simp only [requiredBytes_eq, List.flatten_nil, List.length_nil]; omega)]
    exact hinfo
  | cons c cs ih =>
    intro st hdone hlen hinfo
    by_cases hc : (st.readBuffer ++ c).length < requiredBytes
    · rw [runReadInfo]
      simp only [onVideoSocketReadyRead_accum hdone hc]
      rw [ih ⟨st.readBuffer ++ c, st.infoDone, st.info⟩ hdone
        (by simpa using hc) hinfo]
      rw [requiredBytes_eq] at hc
      simp only [List.length_append] at hc
      simp only [List.flatten_cons, List.length_append, List.append_assoc]
      by_cases hcase : requiredBytes ≤ st.readBuffer.length +
          (c.length + cs.flatten.length)
      · rw [if_pos (by
            simp only [requiredBytes_eq] at hcase ⊢
            omega),
          if_pos (by
            simp only [requiredBytes_eq, List.length_append] at hcase ⊢
            omega)]
      · rw [if_neg (by
            simp only [requiredBytes_eq] at hcase ⊢
            omega),
          if_neg (by
            simp only [requiredBytes_eq, List.length_append] at hcase ⊢
            omega)]
    · rw [runReadInfo]
      simp only [onVideoSocketReadyRead_complete hdone hc, runReadInfo_true]
      have hge : requiredBytes ≤ (st.readBuffer ++ c).length := by omega
      rw [if_pos (by
        rw [requiredBytes_eq] at hc ⊢
        simp only [List.length_append] at hc ⊢
        simp only [List.flatten_cons, List.length_append]
        omega)]
      simp only [List.flatten_cons, ← List.append_assoc]
      rw [parseDeviceInfo_append _ _ hge]

/-- C4: for every way of splitting the handshake byte stream into successive
chunks delivered to the video-socket read handler, the parser accumulates the
bytes and completes exactly once, at the unique chunk index whose cumulative
byte count first reaches 76; the parsed info depends only on the
concatenation of the chunks, not on the split points; with fewer than 76
total bytes nothing completes (the handler simply returns, reporting no
error — it has no error path). -/
theorem handshake_split_independence (chunks : List (List Nat)) :
    ((runReadInfo initReadInfoState chunks).2.count true =
      if requiredBytes ≤ chunks.flatten.length then 1 else 0) ∧
    (∀ i : Nat, ((runReadInfo initReadInfoState chunks).2.getD i false = true ↔
      (requiredBytes ≤ ((chunks.take (i + 1)).flatten).length ∧
        ((chunks.take i).flatten).length < requiredBytes))) ∧
    ((runReadInfo initReadInfoState chunks).1.info =
      if requiredBytes ≤ chunks.flatten.length
      then some (parseDeviceInfo chunks.flatten) else none) := by
  refine ⟨?_, ?_, ?_⟩
  · simpa [initReadInfoState] using
      runReadInfo_count chunks initReadInfoState rfl (by decide)
  · intro i
    simpa [initReadInfoState] using
      runReadInfo_flags chunks initReadInfoState rfl (by decide) i
  · simpa [initReadInfoState] using
      runReadInfo_info chunks initReadInfoState rfl (by decide) rfl

/-- Witness for `handshake_split_independence` at the split 40 + 36 bytes. -/
theorem handshake_split_independence_witness :
    ((runReadInfo initReadInfoState
        [List.replicate 40 5, List.replicate 36 7]).2.count true =
      if requiredBytes ≤
          ([List.replicate 40 5, List.replicate 36 7] :
            List (List Nat)).flatten.length
      then 1 else 0) ∧
    (∀ i : Nat, ((runReadInfo initReadInfoState
        [List.replicate 40 5, List.replicate 36 7]).2.getD i false = true ↔
      (requiredBytes ≤
          ((([List.replicate 40 5, List.replicate 36 7] :
            List (List Nat)).take (i + 1)).flatten).length ∧
        ((([List.replicate 40 5, List.replicate 36 7] :
          List (List Nat)).take i).flatten).length < requiredBytes))) ∧
    ((runReadInfo initReadInfoState
        [List.replicate 40 5, List.replicate 36 7]).1.info =
      if requiredBytes ≤
          ([List.replicate 40 5, List.replicate 36 7] :
            List (List Nat)).flatten.length
      then some (parseDeviceInfo
        ([List.replicate 40 5, List.replicate 36 7] :
          List (List Nat)).flatten)
      else none) :=
  handshake_split_independence [List.replicate 40 5, List.replicate 36 7]

/-- C8: a buffered 76-byte handshake header is parsed into stored device
info whose frame width is the big-endian unsigned 32-bit integer in bytes
68..71 of the header and whose frame height is the big-endian unsigned
32-bit integer in bytes 72..75. -/
theorem parseDeviceInfo_be (buf : List Nat) (hlen : requiredBytes ≤ buf.length)
    (hbytes : ∀ b ∈ buf, b < 256) :
    (onVideoSocketReadyRead initReadInfoState buf).1.info =
      some (parseDeviceInfo buf) ∧
    (parseDeviceInfo buf).width =
      ((byteAt buf 68 * 256 + byteAt buf 69) * 256 + byteAt buf 70) * 256 +
        byteAt buf 71 ∧
    (parseDeviceInfo buf).height =
      ((byteAt buf 72 * 256 + byteAt buf 73) * 256 + byteAt buf 74) * 256 +
        byteAt buf 75 := by
  rw [requiredBytes_eq] at hlen
  have hb : ∀ i : Nat, i < 76 → byteAt buf i < 256 := fun i hi =>
    byteAt_lt hbytes (by omega)
  refine ⟨?_, ?_, ?_⟩
  · have hc : ¬ (initReadInfoState.readBuffer ++ buf).length < requiredBytes := by
      simp only [initReadInfoState, List.nil_append, requiredBytes_eq]
      omega
    rw [onVideoSocketReadyRead_complete rfl hc]
    simp [initReadInfoState]
  · show (parseDeviceInfo buf).width = _
    unfold parseDeviceInfo
    norm_num [DEVICE_NAME_FIELD_LENGTH]
    exact bufferRead32be_eq (hb 68 (by omega)) (hb 69 (by omega))
      (hb 70 (by omega)) (hb 71 (by omega))
  · show (parseDeviceInfo buf).height = _
    unfold parseDeviceInfo
    norm_num [DEVICE_NAME_FIELD_LENGTH]
    exact bufferRead32be_eq (hb 72 (by omega)) (hb 73 (by omega))
      (hb 74 (by omega)) (hb 75 (by omega))

/-- Witness for `parseDeviceInfo_be`: a concrete 76-byte header with width
300 (0x0000012C) and height 648 (0x00000288). -/
theorem parseDeviceInfo_be_witness :
    ((onVideoSocketReadyRead initReadInfoState
        (List.replicate 68 0 ++ [0, 0, 1, 44, 0, 0, 2, 88])).1.info =
      some (parseDeviceInfo
        (List.replicate 68 0 ++ [0, 0, 1, 44, 0, 0, 2, 88]))) ∧
    ((parseDeviceInfo
        (List.replicate 68 0 ++ [0, 0, 1, 44, 0, 0, 2, 88])).width =
      ((byteAt (List.replicate 68 0 ++ [0, 0, 1, 44, 0, 0, 2, 88]) 68 * 256 +
          byteAt (List.replicate 68 0 ++ [0, 0, 1, 44, 0, 0, 2, 88]) 69) * 256 +
        byteAt (List.replicate 68 0 ++ [0, 0, 1, 44, 0, 0, 2, 88]) 70) * 256 +
        byteAt (List.replicate 68 0 ++ [0, 0, 1, 44, 0, 0, 2, 88]) 71) ∧
    ((parseDeviceInfo
        (List.replicate 68 0 ++ [0, 0, 1, 44, 0, 0, 2, 88])).height =
      ((byteAt (List.replicate 68 0 ++ [0, 0, 1, 44, 0, 0, 2, 88]) 72 * 256 +
          byteAt (List.replicate 68 0 ++ [0, 0, 1, 44, 0, 0, 2, 88]) 73) * 256 +
        byteAt (List.replicate 68 0 ++ [0, 0, 1, 44, 0, 0, 2, 88]) 74) * 256 +
        byteAt (List.replicate 68 0 ++ [0, 0, 1, 44, 0, 0, 2, 88]) 75) :=
  parseDeviceInfo_be (List.replicate 68 0 ++ [0, 0, 1, 44, 0, 0, 2, 88])
    (by decide) (by decide)

/-!
## Server: bring-up steps and tunnel fallback
Embedded from `server.cpp` (`Server::startServerByStep`,
`Server::onWorkProcessResult`).
-/

/-- `SERVER_START_STEP` from server.h. -/
inductive ServerStartStep
  | sssNull | sssPush | sssEnableTunnelReverse | sssEnableTunnelForward
  | sssExecuteServer | sssRunning
  deriving Repr, DecidableEq

/-- `AdbProcess::ADB_EXEC_RESULT` as branched on in `onWorkProcessResult`:
start notification, successful completion, or any error value. -/
inductive AdbResult
  | successStart | successExec | errorExec
  deriving Repr, DecidableEq

/-- The adb commands the bring-up issues. -/
inductive AdbCmd
  | push | reverse | forward | execute | reverseRemove
  deriving Repr, DecidableEq

/-- The bring-up state of `Server` relevant to `onWorkProcessResult`. -/
structure ServerState where
  serverStartStep : ServerStartStep
  tunnelForward : Bool
  tunnelEnabled : Bool
  serverSocketListening : Bool
  deriving Repr, DecidableEq

/-- A step's externally visible output: adb commands issued and whether
`serverStarted(false)` was emitted. -/
structure StepOutput where
  cmds : List AdbCmd
  startedFalse : Bool
  deriving Repr, DecidableEq

/-- `Server::startServerByStep`: issues the command of the current step; for
a step with no command (`SSS_NULL`, `SSS_RUNNING`, `SSS_EXECUTE_SERVER` is
issued via `execute`) `stepSuccess` stays false and `serverStarted(false)`
is emitted. -/
def startServerByStep : ServerStartStep → List AdbCmd × Bool
  | .sssPush => ([.push], false)
  | .sssEnableTunnelReverse => ([.reverse], false)
  | .sssEnableTunnelForward => ([.forward], false)
  | .sssExecuteServer => ([.execute], false)
  | _ => ([], true)

/-- The `sender() == &m_workProcess` part of `Server::onWorkProcessResult`.
`useReverse` is `m_params.useReverse`; `listenOk` is the outcome of
`m_serverSocket.listen`, consulted only after a successful reverse
command. -/
def onWorkProcessResult (st : ServerState) (useReverse : Bool)
    (res : AdbResult) (listenOk : Bool) : ServerState × StepOutput :=
  match st.serverStartStep, res with
  | .sssPush, .successExec =>
    let st' := if useReverse
      then { st with serverStartStep := .sssEnableTunnelReverse }
      else { st with
        tunnelForward := true
        serverStartStep := .sssEnableTunnelForward }
    let r := startServerByStep st'.serverStartStep
    (st', ⟨r.1, r.2⟩)
  | .sssPush, .successStart => (st, ⟨[], false⟩)
  | .sssPush, .errorExec =>
    ({ st with serverStartStep := .sssNull }, ⟨[], true⟩)
  | .sssEnableTunnelReverse, .successExec =>
    if listenOk then
      let st' := { st with
        serverSocketListening := true
        serverStartStep := .sssExecuteServer }
      let r := startServerByStep st'.serverStartStep
      (st', ⟨r.1, r.2⟩)
    else
      ({ st with serverStartStep := .sssNull }, ⟨[.reverseRemove], true⟩)
  | .sssEnableTunnelReverse, .successStart => (st, ⟨[], false⟩)
  | .sssEnableTunnelReverse, .errorExec =>
    let st' := { st with
      tunnelForward := true
      serverStartStep := .sssEnableTunnelForward }
    let r := startServerByStep st'.serverStartStep
    (st', ⟨r.1, r.2⟩)
  | .sssEnableTunnelForward, .successExec =>
    let st' := { st with serverStartStep := .sssExecuteServer }
    let r := startServerByStep st'.serverStartStep
    (st', ⟨r.1, r.2⟩)
  | .sssEnableTunnelForward, .successStart => (st, ⟨[], false⟩)
  | .sssEnableTunnelForward, .errorExec =>
    ({ st with serverStartStep := .sssNull }, ⟨[], true⟩)
  | _, _ => (st, ⟨[], false⟩)

/-- C6: a failed reverse-tunnel bridge call falls back once to forward mode —
the step becomes EnableTunnelForward, the forward command is issued to
continue bring-up, and no failure is reported; a failed forward-tunnel
bridge call is fatal — the step becomes Null and `serverStarted(false)` is
emitted with no further command; and from the Null step every further work
result is ignored, so no further fallback happens. -/
theorem tunnel_fallback_spec (st : ServerState) (useReverse listenOk : Bool)
    (res : AdbResult) :
    (st.serverStartStep = .sssEnableTunnelReverse →
      onWorkProcessResult st useReverse .errorExec listenOk =
        ({ st with
            tunnelForward := true
            serverStartStep := .sssEnableTunnelForward },
          ⟨[.forward], false⟩)) ∧
    (st.serverStartStep = .sssEnableTunnelForward →
      onWorkProcessResult st useReverse .errorExec listenOk =
        ({ st with serverStartStep := .sssNull }, ⟨[], true⟩)) ∧
    (st.serverStartStep = .sssNull →
      onWorkProcessResult st useReverse res listenOk = (st, ⟨[], false⟩)) := by
  refine ⟨?_, ?_, ?_⟩
  · intro h
    simp [onWorkProcessResult, h, startServerByStep]
  · intro h
    simp [onWorkProcessResult, h, startServerByStep]
  · intro h
    cases res <;> simp [onWorkProcessResult, h]

/-- Witness for `tunnel_fallback_spec` at concrete states in the reverse,
forward and null steps. -/
theorem tunnel_fallback_spec_witness :
    ((⟨.sssEnableTunnelReverse, false, true, false⟩ :
        ServerState).serverStartStep = .sssEnableTunnelReverse →
      onWorkProcessResult ⟨.sssEnableTunnelReverse, false, true, false⟩ true
          .errorExec true =
        ({ (⟨.sssEnableTunnelReverse, false, true, false⟩ : ServerState) with
            tunnelForward := true
            serverStartStep := .sssEnableTunnelForward },
          ⟨[.forward], false⟩)) ∧
    ((⟨.sssEnableTunnelReverse, false, true, false⟩ :
        ServerState).serverStartStep = .sssEnableTunnelForward →
      onWorkProcessResult ⟨.sssEnableTunnelReverse, false, true, false⟩ true
          .errorExec true =
        ({ (⟨.sssEnableTunnelReverse, false, true, false⟩ : ServerState) with
            serverStartStep := .sssNull }, ⟨[], true⟩)) ∧
    ((⟨.sssEnableTunnelReverse, false, true, false⟩ :
        ServerState).serverStartStep = .sssNull →
      onWorkProcessResult ⟨.sssEnableTunnelReverse, false, true, false⟩ true
          .successExec true =
        (⟨.sssEnableTunnelReverse, false, true, false⟩, ⟨[], false⟩)) :=
  tunnel_fallback_spec ⟨.sssEnableTunnelReverse, false, true, false⟩ true true
    .successExec

/-!
## Server: two-phase session-ready barrier
Embedded from `server.cpp`: the `newConnection` lambda of the constructor
(reverse mode), `Server::onVideoSocketConnected`,
`Server::onControlSocketConnected` (forward mode) and
`Server::onVideoSocketReadyRead` (both modes).
-/

/-- Signals `Server` emits towards `Device`. -/
inductive ServerSignal
  | serverStartedTrue
  | serverStartedFalse
  deriving Repr, DecidableEq

/-- Reverse-mode connection state: handshake read state, parsed device name
(`m_deviceName`, initially empty), control socket presence and validity,
listening server socket and tunnel flag. -/
structure ReverseState where
  readBuffer : List Nat
  infoDone : Bool
  deviceName : List Nat
  deviceSize : Option (Nat × Nat)
  controlSocket : Bool
  controlValid : Bool
  serverSocketOpen : Bool
  tunnelEnabled : Bool
  deriving Repr, DecidableEq

/-- Reverse-mode events: the second accepted connection (the control
socket, with its validity) and a `readyRead` delivery of video bytes. -/
inductive ReverseEvent
  | controlConnection (valid : Bool)
  | videoData (chunk : List Nat)
  deriving Repr, DecidableEq

/-- Reverse-mode state right after the video socket was accepted and
`startAsyncReadInfo` cleared the buffer. -/
def initReverseState : ReverseState :=
  ⟨[], false, [], none, false, false, true, true⟩

/-- One reverse-mode event: the control branch of the `newConnection` lambda,
or `onVideoSocketReadyRead` with `m_videoSocket` set. -/
def reverseStep (st : ReverseState) :
    ReverseEvent → ReverseState × List ServerSignal
  | .controlConnection valid =>
    let st1 := { st with controlSocket := true, controlValid := valid }
    if valid then
      if st1.deviceName ≠ [] then
        ({ st1 with serverSocketOpen := false, tunnelEnabled := false },
          [.serverStartedTrue])
      else
        (st1, [])
    else
      ({ st1 with serverSocketOpen := false, tunnelEnabled := false },
        [.serverStartedFalse])
  | .videoData chunk =>
    if st.infoDone then (st, [])
    else
      let buf := st.readBuffer ++ chunk
      if buf.length < requiredBytes then
        ({ st with readBuffer := buf }, [])
      else
        let di := parseDeviceInfo buf
        let st1 := { st with
          readBuffer := buf.drop requiredBytes
          infoDone := true
          deviceName := di.name
          deviceSize := some (di.width, di.height) }
        if st1.controlSocket = true ∧ st1.controlValid = true then
          ({ st1 with serverSocketOpen := false, tunnelEnabled := false },
            [.serverStartedTrue])
        else
          (st1, [])

/-- The reverse-mode trace: per-event (post-state, emitted signals). -/
def reverseRun (st : ReverseState) :
    List ReverseEvent → List (ReverseState × List ServerSignal)
  | [] => []
  | e :: es =>
    let r := reverseStep st e
    r :: reverseRun r.1 es

/-- A non-empty `m_deviceName` only ever results from a completed parse. -/
def reverseInv (st : ReverseState) : Prop :=
  st.deviceName ≠ [] → st.infoDone = true

lemma reverseStep_inv {st : ReverseState} (h : reverseInv st)
    (e : ReverseEvent) : reverseInv (reverseStep st e).1 := by
  cases e <;> unfold reverseStep <;> dsimp only <;> split_ifs <;>
    simp_all [reverseInv]

lemma reverseStep_safety {st : ReverseState} (hinv : reverseInv st)
    (e : ReverseEvent)
    (hsig : ServerSignal.serverStartedTrue ∈ (reverseStep st e).2) :
    (reverseStep st e).1.infoDone = true ∧
    (reverseStep st e).1.controlSocket = true ∧
    (reverseStep st e).1.controlValid = true := by
  cases e <;> unfold reverseStep at hsig ⊢ <;> dsimp only at hsig ⊢ <;>
    split_ifs at hsig ⊢ <;> simp_all [reverseInv]

lemma reverseRun_safety (es : List ReverseEvent) :
    ∀ st : ReverseState, reverseInv st →
      ∀ p ∈ reverseRun st es, ServerSignal.serverStartedTrue ∈ p.2 →
        p.1.infoDone = true ∧ p.1.controlSocket = true ∧
        p.1.controlValid = true := by
  induction es with
  | nil => intro st _ p hp; cases hp
  | cons e es ih =>
    intro st hinv p hp hsig
    rcases List.mem_cons.mp hp with rfl | hp
    · exact reverseStep_safety hinv e hsig
    · exact ih _ (reverseStep_inv hinv e) p hp hsig

/-- Forward-mode connection state: the pending socket pair of
`startAsyncConnect`, the two ready flags, the handshake read state and the
finalization flag. -/
structure ForwardState where
  readBuffer : List Nat
  infoDone : Bool
  deviceName : List Nat
  deviceSize : Option (Nat × Nat)
  videoSocketReady : Bool
  controlSocketReady : Bool
  pendingVideo : Bool
  pendingControl : Bool
  finalized : Bool
  tunnelEnabled : Bool
  deriving Repr, DecidableEq

/-- Forward-mode events: the async connects of the two pending sockets and a
`readyRead` delivery of video bytes. -/
inductive ForwardEvent
  | videoConnected
  | controlConnected
  | videoData (chunk : List Nat)
  deriving Repr, DecidableEq

/-- Forward-mode state right after `startAsyncConnect` created the pending
socket pair. -/
def initForwardState : ForwardState :=
  ⟨[], false, [], none, false, false, true, true, false, true⟩

/-- One forward-mode event: `onVideoSocketConnected`,
`onControlSocketConnected`, or `onVideoSocketReadyRead` with
`m_pendingVideoSocket` set. -/
def forwardStep (st : ForwardState) :
    ForwardEvent → ForwardState × List ServerSignal
  | .videoConnected =>
    if st.pendingVideo then
      ({ st with videoSocketReady := true, readBuffer := [] }, [])
    else (st, [])
  | .controlConnected =>
    if st.pendingControl then
      let st1 := { st with controlSocketReady := true }
      if st1.videoSocketReady = true ∧ st1.deviceName ≠ [] then
        ({ st1 with
            pendingVideo := false
            pendingControl := false
            finalized := true
            tunnelEnabled := false
            deviceName := []
            deviceSize := none }, [.serverStartedTrue])
      else (st1, [])
    else (st, [])
  | .videoData chunk =>
    if st.infoDone then (st, [])
    else
      let buf := st.readBuffer ++ chunk
      if buf.length < requiredBytes then
        ({ st with readBuffer := buf }, [])
      else
        let di := parseDeviceInfo buf
        let st1 := { st with
          readBuffer := buf.drop requiredBytes
          infoDone := true
          deviceName := di.name
          deviceSize := some (di.width, di.height) }
        if st1.pendingVideo then
          if st1.controlSocketReady then
            ({ st1 with
                pendingVideo := false
                pendingControl := false
                finalized := true
                tunnelEnabled := false
                deviceName := []
                deviceSize := none }, [.serverStartedTrue])
          else (st1, [])
        else (st1, [])

/-- The forward-mode trace: per-event (post-state, emitted signals). -/
def forwardRun (st : ForwardState) :
    List ForwardEvent → List (ForwardState × List ServerSignal)
  | [] => []
  | e :: es =>
    let r := forwardStep st e
    r :: forwardRun r.1 es

/-- A non-empty `m_deviceName` only ever results from a completed parse. -/
def forwardInv (st : ForwardState) : Prop :=
  st.deviceName ≠ [] → st.infoDone = true

lemma forwardStep_inv {st : ForwardState} (h : forwardInv st)
    (e : ForwardEvent) : forwardInv (forwardStep st e).1 := by
  cases e <;> unfold forwardStep <;> dsimp only <;> split_ifs <;>
    simp_all [forwardInv]

lemma forwardStep_safety {st : ForwardState} (hinv : forwardInv st)
    (e : ForwardEvent)
    (hsig : ServerSignal.serverStartedTrue ∈ (forwardStep st e).2) :
    (forwardStep st e).1.infoDone = true ∧
    (forwardStep st e).1.controlSocketReady = true := by
  cases e <;> unfold forwardStep at hsig ⊢ <;> dsimp only at hsig ⊢ <;>
    split_ifs at hsig ⊢ <;> simp_all [forwardInv]

lemma forwardRun_safety (es : List ForwardEvent) :
    ∀ st : ForwardState, forwardInv st →
      ∀ p ∈ forwardRun st es, ServerSignal.serverStartedTrue ∈ p.2 →
        p.1.infoDone = true ∧ p.1.controlSocketReady = true := by
  induction es with
  | nil => intro st _ p hp; cases hp
  | cons e es ih =>
    intro st hinv p hp hsig
    rcases List.mem_cons.mp hp with rfl | hp
    · exact forwardStep_safety hinv e hsig
    · exact ih _ (forwardStep_inv hinv e) p hp hsig

/-- C3: along every event trace from the initial state, in both tunnel
modes, `serverStarted(true)` is emitted at a step only when the 76-byte
handshake has been fully parsed (the read handler completed) and the
control socket is connected (and valid, in reverse mode); a step in which
only one of the two conditions holds emits nothing. -/
theorem running_requires_handshake_and_control
    (revs : List ReverseEvent) (fwds : List ForwardEvent) :
    (∀ p ∈ reverseRun initReverseState revs,
      ServerSignal.serverStartedTrue ∈ p.2 →
        p.1.infoDone = true ∧ p.1.controlSocket = true ∧
        p.1.controlValid = true) ∧
    (∀ p ∈ forwardRun initForwardState fwds,
      ServerSignal.serverStartedTrue ∈ p.2 →
        p.1.infoDone = true ∧ p.1.controlSocketReady = true) :=
  ⟨reverseRun_safety revs initReverseState (by intro h; exact absurd rfl h),
    forwardRun_safety fwds initForwardState (by intro h; exact absurd rfl h)⟩

/-- Witness for `running_requires_handshake_and_control`: concrete traces
where the signal fires — reverse: full 76-byte header then a valid control
connection; forward: video connect, 76-byte header, control connect. -/
theorem running_requires_handshake_and_control_witness :
    (((reverseRun initReverseState
        [ReverseEvent.videoData (1 :: List.replicate 75 0),
          ReverseEvent.controlConnection true]).getD 1
        (initReverseState, [])).1.infoDone = true ∧
      ((reverseRun initReverseState
        [ReverseEvent.videoData (1 :: List.replicate 75 0),
          ReverseEvent.controlConnection true]).getD 1
        (initReverseState, [])).1.controlSocket = true ∧
      ((reverseRun initReverseState
        [ReverseEvent.videoData (1 :: List.replicate 75 0),
          ReverseEvent.controlConnection true]).getD 1
        (initReverseState, [])).1.controlValid = true) ∧
    (((forwardRun initForwardState
        [ForwardEvent.videoConnected,
          ForwardEvent.videoData (2 :: List.replicate 75 0),
          ForwardEvent.controlConnected]).getD 2
        (initForwardState, [])).1.infoDone = true ∧
      ((forwardRun initForwardState
        [ForwardEvent.videoConnected,
          ForwardEvent.videoData (2 :: List.replicate 75 0),
          ForwardEvent.controlConnected]).getD 2
        (initForwardState, [])).1.controlSocketReady = true) :=
  ⟨(running_requires_handshake_and_control
      [ReverseEvent.videoData (1 :: List.replicate 75 0),
        ReverseEvent.controlConnection true] []).1 _
      (by decide) (by decide),
    (running_requires_handshake_and_control []
      [ForwardEvent.videoConnected,
        ForwardEvent.videoData (2 :: List.replicate 75 0),
        ForwardEvent.controlConnected]).2 _
      (by decide) (by decide)⟩

/-!
## Decoder: codec opening
Embedded from `decoder.cpp` (`Decoder::open`, `Decoder::openHardwareDecoder`,
`Decoder::openSoftwareDecoder`, `Decoder::getHardwareDecoderName`).
-/

/-- The accelerator device types the decoder tries. -/
inductive HwDeviceType
  | vaapi | qsv | cuda
  deriving Repr, DecidableEq

/-- `Decoder::getHardwareDecoderName`. -/
def getHardwareDecoderName : HwDeviceType → String
  | .vaapi => "h264_vaapi"
  | .qsv => "h264_qsv"
  | .cuda => "h264_cuvid"

/-- The priority array of `Decoder::openHardwareDecoder`: VAAPI, then QSV,
then CUDA. -/
def hardwareTypes : List HwDeviceType := [.vaapi, .qsv, .cuda]

/-- Environment outcome of one hardware candidate's setup steps:
`avcodec_find_decoder_by_name`, `avcodec_alloc_context3`,
`av_hwdevice_ctx_create`, `avcodec_open2`, `av_frame_alloc`. -/
structure HwCandidateEnv where
  findCodec : Bool
  allocCtx : Bool
  createDeviceCtx : Bool
  openCodec : Bool
  frameAlloc : Bool
  deriving Repr, DecidableEq

/-- Environment outcome of the software path's steps
(`avcodec_find_decoder(AV_CODEC_ID_H264)`, `avcodec_alloc_context3`,
`avcodec_open2`). -/
structure SwEnv where
  findCodec : Bool
  allocCtx : Bool
  openCodec : Bool
  deriving Repr, DecidableEq

/-- A hardware candidate wins only when every step of its setup succeeds;
any failing step frees what was allocated and `continue`s with the next
candidate. -/
def fullSetup (e : HwCandidateEnv) : Bool :=
  e.findCodec && e.allocCtx && e.createDeviceCtx && e.openCodec && e.frameAlloc

/-- The loop of `Decoder::openHardwareDecoder`: walk the candidate list in
order, return the first fully successful candidate together with the list
of candidates tried (in order). -/
def openHardwareDecoder (env : HwDeviceType → HwCandidateEnv) :
    List HwDeviceType → Option HwDeviceType × List HwDeviceType
  | [] => (none, [])
  | t :: ts =>
    if fullSetup (env t) then (some t, [t])
    else
      let r := openHardwareDecoder env ts
      (r.1, t :: r.2)

/-- `Decoder::openSoftwareDecoder` succeeds when its three steps do. -/
def openSoftwareDecoder (sw : SwEnv) : Bool :=
  sw.findCodec && sw.allocCtx && sw.openCodec

/-- `m_useHardwareDecoder` as a mode. -/
inductive DecoderMode
  | hardware | software
  deriving Repr, DecidableEq

/-- Result of `Decoder::open`: overall success, the selected mode, the
winning hardware candidate, the hardware candidates attempted (in order)
and whether the software path was tried. -/
structure OpenOutcome where
  ok : Bool
  mode : Option DecoderMode
  winner : Option HwDeviceType
  hwAttempted : List HwDeviceType
  swAttempted : Bool
  deriving Repr, DecidableEq

/-- `Decoder::open`: try the hardware candidates first; only when every one
of them failed, fall back to the software decoder. -/
def openDecoder (env : HwDeviceType → HwCandidateEnv) (sw : SwEnv) :
    OpenOutcome :=
  let r := openHardwareDecoder env hardwareTypes
  match r.1 with
  | some t => ⟨true, some .hardware, some t, r.2, false⟩
  | none =>
    if openSoftwareDecoder sw then
      ⟨true, some .software, none, r.2, true⟩
    else
      ⟨false, none, none, r.2, true⟩

/-- C7: `open` walks the hardware candidates in the fixed declared order
VAAPI, QSV, CUDA: the winner is the first candidate whose full setup
succeeds and sets hardware mode; exactly the declared prefix up to the
winner is attempted (all three when none wins); the software decoder is
attempted precisely when every hardware candidate failed, and when its
setup succeeds, software mode is set. -/
theorem decoder_open_spec (env : HwDeviceType → HwCandidateEnv) (sw : SwEnv) :
    ((openDecoder env sw).winner =
      hardwareTypes.find? (fun t => fullSetup (env t))) ∧
    ((openDecoder env sw).hwAttempted =
      hardwareTypes.take
        ((hardwareTypes.findIdx (fun t => fullSetup (env t))) + 1)) ∧
    ((openDecoder env sw).swAttempted =
      hardwareTypes.all (fun t => !fullSetup (env t))) ∧
    ((openDecoder env sw).mode =
      if (openDecoder env sw).winner.isSome then some .hardware
      else if openSoftwareDecoder sw then some .software else none) ∧
    ((openDecoder env sw).ok =
      ((openDecoder env sw).winner.isSome || openSoftwareDecoder sw)) := by
  cases hv : fullSetup (env .vaapi) <;> cases hq : fullSetup (env .qsv) <;>
    cases hc : fullSetup (env .cuda) <;> cases hs : openSoftwareDecoder sw <;>
      simp [openDecoder, openHardwareDecoder, hardwareTypes, hv, hq, hc, hs,
        List.findIdx_cons]

/-!
## Decoder: packet push and frame drain
Embedded from `decoder.cpp` (`Decoder::push`, `Decoder::pushFrame`).
-/

/-- Abstract codec context: the decoded frames ready to be received
(`avcodec_receive_frame` pops one; an empty queue is AVERROR(EAGAIN)).
An access unit is modelled as the list of frames its decode makes
available. -/
structure CodecCtx where
  pending : List Nat
  deriving Repr, DecidableEq

/-- `avcodec_send_packet` on success makes the packet's decoded frames
available for receiving. -/
def sendPacket (ctx : CodecCtx) (packet : List Nat) : CodecCtx :=
  ⟨ctx.pending ++ packet⟩

/-- `avcodec_receive_frame`: a frame, or none for AVERROR(EAGAIN). -/
def receiveFrame (ctx : CodecCtx) : Option Nat × CodecCtx :=
  match ctx.pending with
  | [] => (none, ctx)
  | f :: rest => (some f, ⟨rest⟩)

/-- Decoder state for `push`: the codec context and the hardware flag. -/
structure DecoderState where
  codecCtx : CodecCtx
  useHardwareDecoder : Bool
  deriving Repr, DecidableEq

/-- `Decoder::push` on an open decoder (the new send/receive API): send the
packet (a failed send returns false); then make exactly one
`avcodec_receive_frame` call — a received frame is transferred from
accelerator memory in hardware mode (a failed transfer returns false with
no frame delivered) and handed to the frame slot via `pushFrame`; EAGAIN is
success with no frame. Returns (success, new state, frames handed to the
frame slot). -/
def Decoder.push (st : DecoderState) (packet : List Nat)
    (sendOk transferOk : Bool) : Bool × DecoderState × List Nat :=
  if !sendOk then (false, st, [])
  else
    let ctx1 := sendPacket st.codecCtx packet
    match receiveFrame ctx1 with
    | (none, ctx2) => (true, { st with codecCtx := ctx2 }, [])
    | (some f, ctx2) =>
      if st.useHardwareDecoder then
        if transferOk then (true, { st with codecCtx := ctx2 }, [f])
        else (false, { st with codecCtx := ctx2 }, [])
      else (true, { st with codecCtx := ctx2 }, [f])

/-- The claim as the spec words it: after a successful submit, `push`
drains decoded frames in a loop until EAGAIN, handing every available frame
to the frame slot and leaving the codec with none pending. -/
def pushDrainsUntilEAGAIN : Prop :=
  ∀ st : DecoderState, ∀ packet : List Nat,
    (Decoder.push st packet true true).2.2 = st.codecCtx.pending ++ packet ∧
    (Decoder.push st packet true true).2.1.codecCtx.pending = []

/-- C2 counterexample: an access unit that decodes into two frames. The
code makes a single `avcodec_receive_frame` call per push, so only the
first frame reaches the frame slot and one stays pending inside the codec;
the claimed drain-until-EAGAIN loop does not exist in the code. -/
theorem push_single_receive_counterexample :
    (Decoder.push ⟨⟨[]⟩, false⟩ [1, 2] true true).2.2 = [1] ∧
    (Decoder.push ⟨⟨[]⟩, false⟩ [1, 2] true true).2.1.codecCtx.pending =
      [2] ∧
    ¬ pushDrainsUntilEAGAIN := by
  refine ⟨by decide, by decide, fun h => ?_⟩
  exact absurd (h ⟨⟨[]⟩, false⟩ [1, 2]).1 (by decide)

/-- C2 (amended): for every access unit accepted by push, after submitting
the unit the code makes exactly one receive attempt: the first available
decoded frame, if any, is handed to the frame slot (in hardware mode after
a successful transfer), the need-more-input condition counts as success
with no frame, and any further decoded frames stay pending in the codec. -/
theorem push_one_receive_spec (st : DecoderState) (packet : List Nat)
    (transferOk : Bool)
    (hmode : st.useHardwareDecoder = false ∨ transferOk = true) :
    (Decoder.push st packet true transferOk).1 = true ∧
    (Decoder.push st packet true transferOk).2.2 =
      (st.codecCtx.pending ++ packet).take 1 ∧
    (Decoder.push st packet true transferOk).2.1.codecCtx.pending =
      (st.codecCtx.pending ++ packet).drop 1 ∧
    (Decoder.push st packet true transferOk).2.1.useHardwareDecoder =
      st.useHardwareDecoder := by
  rcases hp : st.codecCtx.pending ++ packet with - | ⟨f, rest⟩ <;>
    rcases hmode with h | h <;>
      simp [Decoder.push, sendPacket, receiveFrame, hp, h]

/-- Witness for `push_one_receive_spec`: a software-mode decoder with one
already-pending frame receiving a one-frame access unit. -/
theorem push_one_receive_spec_witness :
    (Decoder.push ⟨⟨[5]⟩, false⟩ [6] true true).1 = true ∧
    (Decoder.push ⟨⟨[5]⟩, false⟩ [6] true true).2.2 =
      ((⟨⟨[5]⟩, false⟩ : DecoderState).codecCtx.pending ++ [6]).take 1 ∧
    (Decoder.push ⟨⟨[5]⟩, false⟩ [6] true true).2.1.codecCtx.pending =
      ((⟨⟨[5]⟩, false⟩ : DecoderState).codecCtx.pending ++ [6]).drop 1 ∧
    (Decoder.push ⟨⟨[5]⟩, false⟩ [6] true true).2.1.useHardwareDecoder =
      (⟨⟨[5]⟩, false⟩ : DecoderState).useHardwareDecoder :=
  push_one_receive_spec ⟨⟨[5]⟩, false⟩ [6] true (Or.inl rfl)

/-!
## Device: disconnect idempotence
Embedded from `device.cpp` (`Device::disconnectDevice`).
-/

/-- Teardown actions `disconnectDevice` performs. -/
inductive DeviceAction
  | serverStop
  | streamStopDecode
  | decoderClose
  | recorderStopAndWait
  | recorderClose
  | emitDeviceDisconnected
  deriving Repr, DecidableEq

/-- The `Device` state relevant to `disconnectDevice`: whether `m_server`
is non-null (it is nulled by the teardown), which owned components exist,
and the running/success flags. -/
structure DeviceState where
  server : Bool
  hasStream : Bool
  hasDecoder : Bool
  hasRecorder : Bool
  recorderRunning : Bool
  serverStartSuccess : Bool
  deriving Repr, DecidableEq

/-- `Device::disconnectDevice`: with a null `m_server` it returns
immediately; otherwise it stops the server and nulls `m_server`, stops the
stream, closes the decoder, stops and closes the recorder, emits
`deviceDisconnected` when the session had started successfully, and clears
the success flag. -/
def disconnectDevice (st : DeviceState) : DeviceState × List DeviceAction :=
  if st.server = false then (st, [])
  else
    ({ st with
        server := false
        recorderRunning := false
        serverStartSuccess := false },
      [DeviceAction.serverStop] ++
        (if st.hasStream then [DeviceAction.streamStopDecode] else []) ++
        (if st.hasDecoder then [DeviceAction.decoderClose] else []) ++
        (if st.hasRecorder then
          (if st.recorderRunning then
            [DeviceAction.recorderStopAndWait, DeviceAction.recorderClose]
          else [DeviceAction.recorderClose])
        else []) ++
        (if st.serverStartSuccess then
          [DeviceAction.emitDeviceDisconnected] else []))

lemma disconnectDevice_noop {st : DeviceState} (h : st.server = false) :
    disconnectDevice st = (st, []) := by
  simp [disconnectDevice, h]

/-- C9: `disconnectDevice` is idempotent — the first call on a connected
device nulls `m_server`, and a second call then returns immediately: it
leaves all state unchanged and performs no action. -/
theorem disconnectDevice_idempotent (st : DeviceState)
    (h : st.server = true) :
    (disconnectDevice st).1.server = false ∧
    disconnectDevice (disconnectDevice st).1 =
      ((disconnectDevice st).1, []) := by
  have h1 : (disconnectDevice st).1.server = false := by
    simp [disconnectDevice, h]
  exact ⟨h1, disconnectDevice_noop h1⟩

/-- Witness for `disconnectDevice_idempotent` at a fully populated connected
device. -/
theorem disconnectDevice_idempotent_witness :
    (disconnectDevice ⟨true, true, true, true, true, true⟩).1.server =
      false ∧
    disconnectDevice
        (disconnectDevice ⟨true, true, true, true, true, true⟩).1 =
      ((disconnectDevice ⟨true, true, true, true, true, true⟩).1, []) :=
  disconnectDevice_idempotent ⟨true, true, true, true, true, true⟩ rfl

end FarmManager
